import Mathlib

/-!
# Verification of the SimpleWindowService core (recent-location registry + window-open routing)

Shallow embedding of the core logic of `SimpleWindowService`
(src/unnamed/part_000): the recently-opened history
(`getRecentlyOpened` / `addRecentlyOpened` / `removeFromRecentlyOpened` /
`doRemoveFromRecentlyOpened` / `saveRecentlyOpened`), the window-open
routing (`openWindow` / `shouldOpenNewWindow`), and the persistence codec
(`toStoreData` / `restoreRecentlyOpened`, imported by the source from
vs/platform/history/common/historyStorage, which is not part of the given
sources; those two are modelled from the spec).

Modelling conventions:
- A URI is represented by its normalized string form (the value of
  `uri.toString()` in the source); the source compares locations by
  `toString()` equality, which is string equality here.
- Stateful methods become pure functions from the pre-state to the
  post-state plus, where a claim needs it, an explicit list of storage
  writes / navigation actions.
- `JSON.parse` is an external platform function; a stored blob is modelled
  as its raw text together with the verdict of `JSON.parse` on that text
  (either a parsed JSON value or a thrown exception).
-/

namespace SimpleWindowService

/-- A URI in its normalized string form (`uri.toString()` in the source). -/
abbrev URI := String

/-- An entry of the `files` list of the history (IRecentFile). -/
structure RecentFile where
  fileUri : URI
deriving DecidableEq, Repr

/-- An entry of the `workspaces` list of the history: either a folder
(IRecentFolder, carrying `folderUri`) or a multi-root workspace
(IRecentWorkspace, carrying `workspace.id` and `workspace.configPath`).
The source discriminates these with the `isRecentFolder` type guard. -/
inductive RecentWorkspaceEntry where
  | folder (folderUri : URI)
  | workspace (id : String) (configPath : URI)
deriving DecidableEq, Repr

/-- The location the source uses to match a `workspaces` entry:
`isRecentFolder(workspace) ? workspace.folderUri.toString() :
workspace.workspace.configPath.toString()`. -/
def RecentWorkspaceEntry.location : RecentWorkspaceEntry → URI
  | .folder folderUri => folderUri
  | .workspace _ configPath => configPath

/-- The recently-opened history (IRecentlyOpened): two ordered lists,
most-recent first. -/
structure RecentlyOpened where
  workspaces : List RecentWorkspaceEntry
  files : List RecentFile
deriving DecidableEq, Repr

/-- The empty history `{ workspaces: [], files: [] }`. -/
def emptyRecentlyOpened : RecentlyOpened := { workspaces := [], files := [] }

/-- An entry passed to `addRecentlyOpened` (IRecent): a file, a folder, or a
workspace, discriminated in the source by the `isRecentFile` /
`isRecentFolder` type guards. -/
inductive Recent where
  | file (fileUri : URI)
  | folder (folderUri : URI)
  | workspace (id : String) (configPath : URI)
deriving DecidableEq, Repr

/-- The location of an added entry that the source passes to
`doRemoveFromRecentlyOpened` before inserting it (`recent.fileUri`,
`recent.folderUri`, or `recent.workspace.configPath`). -/
def Recent.location : Recent → URI
  | .file fileUri => fileUri
  | .folder folderUri => folderUri
  | .workspace _ configPath => configPath

/-- `doRemoveFromRecentlyOpened`: filter `files` to exclude entries whose
`fileUri` matches any given path, and `workspaces` to exclude entries whose
applicable location (folderUri, or workspace configPath) matches any given
path; matching is `toString()` equality. -/
def doRemoveFromRecentlyOpened (recentlyOpened : RecentlyOpened) (paths : List URI) :
    RecentlyOpened :=
  { files := recentlyOpened.files.filter fun file =>
      !(paths.any fun path => path == file.fileUri),
    workspaces := recentlyOpened.workspaces.filter fun workspace =>
      !(paths.any fun path => path == workspace.location) }

/-- One iteration of the `recents.forEach` loop of `addRecentlyOpened`:
remove any existing entry with the new entry's location, then unshift the
new entry onto `files` (for a file) or `workspaces` (otherwise). -/
def addRecentStep (recentlyOpened : RecentlyOpened) (recent : Recent) : RecentlyOpened :=
  match recent with
  | .file fileUri =>
      let cleaned := doRemoveFromRecentlyOpened recentlyOpened [fileUri]
      { cleaned with files := ⟨fileUri⟩ :: cleaned.files }
  | .folder folderUri =>
      let cleaned := doRemoveFromRecentlyOpened recentlyOpened [folderUri]
      { cleaned with workspaces := .folder folderUri :: cleaned.workspaces }
  | .workspace id configPath =>
      let cleaned := doRemoveFromRecentlyOpened recentlyOpened [configPath]
      { cleaned with workspaces := .workspace id configPath :: cleaned.workspaces }

/-- The data transformation of `addRecentlyOpened`: the `forEach` loop over
the caller-supplied entries, in order. -/
def addRecentlyOpenedData (recentlyOpened : RecentlyOpened) (recents : List Recent) :
    RecentlyOpened :=
  recents.foldl addRecentStep recentlyOpened

/-- IOpenSettings: the two force flags of an open request. Absent flags are
falsy in the source (`!!_options.forceNewWindow`), modelled as `false`. -/
structure OpenSettings where
  forceNewWindow : Bool
  forceReuseWindow : Bool
deriving DecidableEq, Repr

/-- IWindowSettings as read by `shouldOpenNewWindow`: only the
`openFoldersInNewWindow` field is consulted; it may be absent. -/
structure WindowSettings where
  openFoldersInNewWindow : Option String
deriving DecidableEq, Repr

/-- `shouldOpenNewWindow`: `windowConfig` is the (possibly undefined) value
of the `window` configuration. `(windowConfig && windowConfig.openFoldersInNewWindow) || 'default'`
falls back to "default" when the config object or the field is undefined, or
when the field is the empty string (falsy in JS). -/
def shouldOpenNewWindow (options : OpenSettings) (windowConfig : Option WindowSettings) :
    Bool :=
  let openFolderInNewWindowConfig :=
    match windowConfig with
    | some cfg =>
        match cfg.openFoldersInNewWindow with
        | some s => if s == "" then "default" else s
        | none => "default"
    | none => "default"
  let openFolderInNewWindow := options.forceNewWindow && !options.forceReuseWindow
  if !options.forceNewWindow && !options.forceReuseWindow &&
      (openFolderInNewWindowConfig == "on" || openFolderInNewWindowConfig == "off") then
    openFolderInNewWindowConfig == "on"
  else
    openFolderInNewWindow

/-- The spec's `decideNewWindow` precedence table, written from the spec's
words (section 4.2) for comparison with `shouldOpenNewWindow`:
1. forceNewWindow and not forceReuseWindow: true;
2. else, neither force flag and config "on": true;
3. else, neither force flag and config "off": false;
4. else: false. -/
def decideNewWindowSpec (options : OpenSettings) (openFoldersInNewWindow : String) : Bool :=
  if options.forceNewWindow && !options.forceReuseWindow then
    true
  else if !options.forceNewWindow && !options.forceReuseWindow &&
      openFoldersInNewWindow == "on" then
    true
  else if !options.forceNewWindow && !options.forceReuseWindow &&
      openFoldersInNewWindow == "off" then
    false
  else
    false

/-- A JSON value, as produced by the external platform function
`JSON.parse` and consumed/produced by the persistence codec. -/
inductive Json where
  | null
  | bool (b : Bool)
  | num (n : Int)
  | str (s : String)
  | arr (elems : List Json)
  | obj (fields : List (String × Json))

/-- Field access on a JSON value: the value of the first field with the
given key of an object, `none` otherwise. -/
def Json.getField (j : Json) (key : String) : Option Json :=
  match j with
  | .obj fields => fields.lookup key
  | _ => none

/-- Modelled from the spec: the element encoding of a `files` entry in the
serialized history schema of vs/platform/history/common/historyStorage
(not under the given sources): `\x7b "fileUri": <uriString> \x7d`. -/
def storeRecentFile (f : RecentFile) : Json :=
  .obj [("fileUri", .str f.fileUri)]

/-- Modelled from the spec: the element encoding of a `workspaces` entry:
`\x7b "folderUri": <uriString> \x7d` for a folder, or
`\x7b "workspace": \x7b "id": <string>, "configPath": <uriString> \x7d \x7d`
for a multi-root workspace. -/
def storeRecentWorkspaceEntry : RecentWorkspaceEntry → Json
  | .folder folderUri => .obj [("folderUri", .str folderUri)]
  | .workspace id configPath =>
      .obj [("workspace", .obj [("id", .str id), ("configPath", .str configPath)])]

/-- Modelled from the spec: `toStoreData` of
vs/platform/history/common/historyStorage (not under the given sources) —
encode the history into the serialized schema
`\x7b "files": [...], "workspaces": [...] \x7d`. -/
def toStoreData (data : RecentlyOpened) : Json :=
  .obj [("files", .arr (data.files.map storeRecentFile)),
        ("workspaces", .arr (data.workspaces.map storeRecentWorkspaceEntry))]

/-- Modelled from the spec: lenient decoding of one `files` element;
elements not of the recognized shape are skipped rather than failing. -/
def decodeRecentFile (j : Json) : Option RecentFile :=
  match j.getField "fileUri" with
  | some (.str s) => some ⟨s⟩
  | _ => none

/-- Modelled from the spec: lenient decoding of one `workspaces` element
(a folder if it carries `folderUri`, a workspace if it carries
`workspace.id` and `workspace.configPath`); unrecognized shapes are
skipped rather than failing. -/
def decodeRecentWorkspaceEntry (j : Json) : Option RecentWorkspaceEntry :=
  match j.getField "folderUri" with
  | some (.str s) => some (.folder s)
  | _ =>
      match j.getField "workspace" with
      | some w =>
          match w.getField "id", w.getField "configPath" with
          | some (.str id), some (.str configPath) => some (.workspace id configPath)
          | _, _ => none
      | _ => none

/-- Modelled from the spec: `restoreRecentlyOpened` of
vs/platform/history/common/historyStorage (not under the given sources) —
decode the serialized schema; unknown or missing fields decode to empty
lists rather than failing (the function is total: no error result). -/
def restoreRecentlyOpened (j : Json) : RecentlyOpened :=
  { files :=
      match j.getField "files" with
      | some (.arr elems) => elems.filterMap decodeRecentFile
      | _ => [],
    workspaces :=
      match j.getField "workspaces" with
      | some (.arr elems) => elems.filterMap decodeRecentWorkspaceEntry
      | _ => [] }

/-- The storage key `SimpleWindowService.RECENTLY_OPENED_KEY`. -/
def RECENTLY_OPENED_KEY : String := "recently.opened"

/-- A persisted blob as returned by `storageService.get`: its raw text
together with the verdict of the external platform function `JSON.parse`
on that text (`.ok` = the parsed value, `.error` = the thrown exception's
message; `JSON.parse` throws exactly on text that is not valid JSON). -/
structure StoredBlob where
  text : String
  parsed : Except String Json

/-- `getRecentlyOpened`: `raw` is the storage content under
RECENTLY_OPENED_KEY (`none` = key absent). A present, truthy (non-empty)
text is passed to `JSON.parse` with no try/catch, so a parse exception
propagates to the caller (`.error`); a falsy (empty or absent) value
yields the empty history. -/
def getRecentlyOpened (raw : Option StoredBlob) : Except String RecentlyOpened :=
  match raw with
  | some blob =>
      if blob.text == "" then
        .ok emptyRecentlyOpened
      else
        match blob.parsed with
        | .ok j => .ok (restoreRecentlyOpened j)
        | .error e => .error e
  | none => .ok emptyRecentlyOpened

/-- `saveRecentlyOpened`: the single storage write it performs — the whole
history serialized under RECENTLY_OPENED_KEY (GLOBAL scope). -/
def saveRecentlyOpened (data : RecentlyOpened) : List (String × Json) :=
  [(RECENTLY_OPENED_KEY, toStoreData data)]

/-- The outcome of a mutating history operation: the new history and the
sequence of storage writes performed. -/
structure MutationResult where
  history : RecentlyOpened
  writes : List (String × Json)

/-- `addRecentlyOpened`: apply the entries in order to the current history,
then persist once via `saveRecentlyOpened`. -/
def addRecentlyOpened (recentlyOpened : RecentlyOpened) (recents : List Recent) :
    MutationResult :=
  let result := addRecentlyOpenedData recentlyOpened recents
  { history := result, writes := saveRecentlyOpened result }

/-- `removeFromRecentlyOpened`: remove the given paths via
`doRemoveFromRecentlyOpened`, then persist via `saveRecentlyOpened`. -/
def removeFromRecentlyOpened (recentlyOpened : RecentlyOpened) (paths : List URI) :
    MutationResult :=
  let result := doRemoveFromRecentlyOpened recentlyOpened paths
  { history := result, writes := saveRecentlyOpened result }

/-- All locations stored in a history, files first (each file's `fileUri`,
then each workspaces entry's applicable location). -/
def RecentlyOpened.allLocations (h : RecentlyOpened) : List URI :=
  h.files.map RecentFile.fileUri ++ h.workspaces.map RecentWorkspaceEntry.location

/-- The histories reachable from the empty history by
`addRecentlyOpened` / `removeFromRecentlyOpened` calls (data part). -/
inductive ReachableHistory : RecentlyOpened → Prop where
  | empty : ReachableHistory emptyRecentlyOpened
  | add (h : RecentlyOpened) (recents : List Recent) :
      ReachableHistory h → ReachableHistory (addRecentlyOpened h recents).history
  | remove (h : RecentlyOpened) (paths : List URI) :
      ReachableHistory h → ReachableHistory (removeFromRecentlyOpened h paths).history

/-- An element of the `_uris` argument of `openWindow` (IURIToOpen):
discriminated in the source by the presence of the `folderUri`,
`workspaceUri` or `fileUri` property (exactly one for a well-formed
element). -/
inductive URIToOpen where
  | folder (uri : URI)
  | workspace (uri : URI)
  | file (uri : URI)
deriving DecidableEq, Repr

/-- The kind of navigation target (which query parameter the derived
address carries: `?folder=` or `?workspace=`). -/
inductive NavigationKind where
  | folder
  | workspace
deriving DecidableEq, Repr

/-- An observable action of the window service:
`navigate true _ _` is `window.open(newAddress)` (new session),
`navigate false _ _` is `window.location.href = newAddress` (current
session), with the address derived externally from the location's path
component; `openEditor` is the dispatch of a file to the editor-opening
collaborator (`pathsToEditors` + `editorService.openEditors`);
`addRecents` is a call to `addRecentlyOpened`. -/
inductive WindowAction where
  | navigate (openInNewWindow : Bool) (kind : NavigationKind) (uri : URI)
  | openEditor (fileUri : URI)
  | addRecents (recents : List Recent)
deriving DecidableEq, Repr

/-- Whether an action is a call to `addRecentlyOpened`. -/
def WindowAction.isAddRecentsCall : WindowAction → Bool
  | .addRecents _ => true
  | _ => false

/-- `openWindow`: compute the routing decision once via
`shouldOpenNewWindow` (an absent `_options` argument reaches
`shouldOpenNewWindow`'s default `\x7b\x7d`, i.e. both force flags falsy),
then emit one action per element of `_uris`, in order. -/
def openWindow (uris : List URIToOpen) (options : Option OpenSettings)
    (windowConfig : Option WindowSettings) : List WindowAction :=
  let openFolderInNewWindow :=
    shouldOpenNewWindow (options.getD ⟨false, false⟩) windowConfig
  uris.map fun uri =>
    match uri with
    | .folder u => .navigate openFolderInNewWindow .folder u
    | .workspace u => .navigate openFolderInNewWindow .workspace u
    | .file u => .openEditor u

/-- The workbench state consulted by `addWorkspaceToRecentlyOpened` at
service construction. -/
inductive WorkbenchState where
  | empty
  | folder (folderUri : URI)
  | workspace (id : String) (configPath : URI)
deriving DecidableEq, Repr

/-- `addWorkspaceToRecentlyOpened` (run once in the constructor): the
entries it passes to `addRecentlyOpened` — the active folder in a
folder workspace, the active workspace identifier in a multi-root
workspace, nothing otherwise. -/
def addWorkspaceToRecentlyOpened : WorkbenchState → List Recent
  | .empty => []
  | .folder folderUri => [.folder folderUri]
  | .workspace id configPath => [.workspace id configPath]

/-- A malformed persisted blob: the text `\x7b` is not valid JSON, so
`JSON.parse` throws on it. -/
def malformedStoredBlob : StoredBlob :=
  { text := "\x7b", parsed := .error "Unexpected end of JSON input" }

/-- The `folderUri` of a folder entry of the `workspaces` list (`none` for
a workspace entry): the location of the Folder kind. -/
def folderUriOf : RecentWorkspaceEntry → Option URI
  | .folder folderUri => some folderUri
  | .workspace _ _ => none

/-- The `workspace.configPath` of a workspace entry of the `workspaces`
list (`none` for a folder entry): the location of the Workspace kind. -/
def workspaceConfigPathOf : RecentWorkspaceEntry → Option URI
  | .folder _ => none
  | .workspace _ configPath => some configPath

end SimpleWindowService

namespace SimpleWindowService

/-- C1: the implementation agrees with the spec's precedence table on every
input: for a present config value the table is applied to it (an empty
string behaves as "default", which the table sends to the final
catch-all), and for an absent config object the table is applied to
"default". -/
theorem shouldOpenNewWindow_follows_spec_table :
    (∀ (options : OpenSettings) (s : String),
      shouldOpenNewWindow options (some ⟨some s⟩) =
        decideNewWindowSpec options (if s == "" then "default" else s)) ∧
    (∀ (options : OpenSettings),
      shouldOpenNewWindow options none = decideNewWindowSpec options "default") ∧
    (∀ (options : OpenSettings),
      shouldOpenNewWindow options (some ⟨none⟩) = decideNewWindowSpec options "default") := by
  refine ⟨?_, ?_, ?_⟩
  · intro options s
    obtain ⟨fNew, fReuse⟩ := options
    cases fNew <;> cases fReuse <;>
      by_cases h0 : s == "" <;>
      by_cases h1 : s == "on" <;>
      by_cases h2 : s == "off" <;>
      simp_all [shouldOpenNewWindow, decideNewWindowSpec]
  · intro options
    obtain ⟨fNew, fReuse⟩ := options
    cases fNew <;> cases fReuse <;> rfl
  · intro options
    obtain ⟨fNew, fReuse⟩ := options
    cases fNew <;> cases fReuse <;> rfl

/-- C2 counterexample: with both force flags set and the configuration
"on", `shouldOpenNewWindow` returns false, not true as claimed — the
implementation computes forceNewWindow AND NOT forceReuseWindow, so
forceReuseWindow wins when both are given. -/
theorem shouldOpenNewWindow_both_flags_counterexample :
    shouldOpenNewWindow ⟨true, true⟩ (some ⟨some "on"⟩) = false := by
  rfl

/-- C2 amended: for every config value, when both force flags are given,
`shouldOpenNewWindow` returns false — forceReuseWindow defeats
forceNewWindow. -/
theorem shouldOpenNewWindow_both_flags_false :
    ∀ windowConfig : Option WindowSettings,
      shouldOpenNewWindow ⟨true, true⟩ windowConfig = false := by
  intro windowConfig
  rfl

/-- C7: `openWindow` computes the routing decision once via
`shouldOpenNewWindow` and every navigation action it emits carries exactly
that boolean; an editor-open action for a file is emitted exactly if the
request contains that file target, independent of the decision; and a
request of a single folder with forceNewWindow set emits exactly one
new-session navigation for it and nothing else (no editor dispatch). -/
theorem openWindow_routing_decision :
    (∀ (uris : List URIToOpen) (options : Option OpenSettings)
        (windowConfig : Option WindowSettings) (b : Bool) (k : NavigationKind) (u : URI),
      WindowAction.navigate b k u ∈ openWindow uris options windowConfig →
      b = shouldOpenNewWindow (options.getD ⟨false, false⟩) windowConfig) ∧
    (∀ (uris : List URIToOpen) (options : Option OpenSettings)
        (windowConfig : Option WindowSettings) (u : URI),
      WindowAction.openEditor u ∈ openWindow uris options windowConfig ↔
        URIToOpen.file u ∈ uris) ∧
    (∀ (windowConfig : Option WindowSettings) (u : URI),
      openWindow [URIToOpen.folder u] (some ⟨true, false⟩) windowConfig =
        [WindowAction.navigate true NavigationKind.folder u]) := by
  refine ⟨?_, ?_, ?_⟩
  · intro uris options windowConfig b k u hmem
    simp only [openWindow, List.mem_map] at hmem
    obtain ⟨uri, _, heq⟩ := hmem
    cases uri <;> simp_all
  · intro uris options windowConfig u
    constructor
    · intro hmem
      simp only [openWindow, List.mem_map] at hmem
      obtain ⟨uri, hm, heq⟩ := hmem
      cases uri <;> simp_all
    · intro hm
      simp only [openWindow, List.mem_map]
      exact ⟨URIToOpen.file u, hm, rfl⟩
  · intro windowConfig u
    rfl

/-- Witness for C7 at concrete inputs: a navigation action emitted for a
forced-new-window folder request carries the decision true, and the
editor-dispatch equivalence holds for a concrete file request. -/
theorem openWindow_routing_decision_witness :
    true = shouldOpenNewWindow ((some (⟨true, false⟩ : OpenSettings)).getD ⟨false, false⟩) none ∧
    (WindowAction.openEditor "file:///x" ∈
        openWindow [URIToOpen.file "file:///x"] none none ↔
      URIToOpen.file "file:///x" ∈ [URIToOpen.file "file:///x"]) :=
  ⟨openWindow_routing_decision.1 [URIToOpen.folder "file:///proj"] (some ⟨true, false⟩) none
      true NavigationKind.folder "file:///proj" (by decide),
    openWindow_routing_decision.2.1 [URIToOpen.file "file:///x"] none none "file:///x"⟩

/-- C4 counterexample: opening a single folder emits only the navigation
action — in particular no call to `addRecentlyOpened` — so `openWindow`
does not push opened locations into the recent history. -/
theorem openWindow_no_addRecents_counterexample :
    openWindow [URIToOpen.folder "file:///proj"] none none =
        [WindowAction.navigate false NavigationKind.folder "file:///proj"] ∧
    (openWindow [URIToOpen.folder "file:///proj"] none none).countP
        WindowAction.isAddRecentsCall = 0 :=
  ⟨rfl, rfl⟩

/-- C4 amended: `openWindow` never calls `addRecentlyOpened` for any
request; the recent history is instead updated at service construction,
where `addWorkspaceToRecentlyOpened` records the currently active folder
or workspace (and nothing in an empty workbench). -/
theorem openWindow_never_adds_recents :
    (∀ (uris : List URIToOpen) (options : Option OpenSettings)
        (windowConfig : Option WindowSettings),
      (openWindow uris options windowConfig).countP WindowAction.isAddRecentsCall = 0) ∧
    (∀ u : URI, addWorkspaceToRecentlyOpened (.folder u) = [Recent.folder u]) ∧
    (∀ (id : String) (configPath : URI),
      addWorkspaceToRecentlyOpened (.workspace id configPath) =
        [Recent.workspace id configPath]) ∧
    addWorkspaceToRecentlyOpened .empty = [] := by
  refine ⟨?_, fun u => rfl, fun id configPath => rfl, rfl⟩
  intro uris options windowConfig
  simp only [openWindow, List.countP_map]
  rw [List.countP_eq_zero]
  intro uri _
  cases uri <;> simp [WindowAction.isAddRecentsCall, Function.comp]

/-- C3 counterexample: a persisted blob whose text is malformed JSON makes
`getRecentlyOpened` propagate the `JSON.parse` exception to its caller
instead of returning the empty history. -/
theorem getRecentlyOpened_malformed_counterexample :
    getRecentlyOpened (some malformedStoredBlob) =
      Except.error "Unexpected end of JSON input" :=
  rfl

/-- C3 amended: when the persisted text JSON-parses successfully,
`getRecentlyOpened` never fails (unknown shapes are decoded leniently by
the total `restoreRecentlyOpened`), and an absent blob yields the empty
history; but a malformed-JSON blob propagates the parse exception. -/
theorem getRecentlyOpened_ok_on_parseable :
    (∀ (blob : StoredBlob) (j : Json), blob.parsed = Except.ok j →
      (getRecentlyOpened (some blob)).isOk = true) ∧
    getRecentlyOpened none = Except.ok emptyRecentlyOpened := by
  refine ⟨?_, rfl⟩
  intro blob j hp
  obtain ⟨text, parsed⟩ := blob
  simp only at hp
  subst hp
  by_cases h : text == "" <;> simp [getRecentlyOpened, h, Except.isOk, Except.toBool]

/-- Witness for C3 amended at a concrete parseable blob. -/
theorem getRecentlyOpened_ok_on_parseable_witness :
    (getRecentlyOpened (some ⟨"\x7b\x7d", Except.ok (Json.obj [])⟩)).isOk = true :=
  getRecentlyOpened_ok_on_parseable.1 ⟨"\x7b\x7d", Except.ok (Json.obj [])⟩ (Json.obj []) rfl

lemma getField_toStoreData_files (h : RecentlyOpened) :
    (toStoreData h).getField "files" = some (.arr (h.files.map storeRecentFile)) :=
  rfl

lemma getField_toStoreData_workspaces (h : RecentlyOpened) :
    (toStoreData h).getField "workspaces" =
      some (.arr (h.workspaces.map storeRecentWorkspaceEntry)) :=
  rfl

lemma decodeRecentFile_store (f : RecentFile) :
    decodeRecentFile (storeRecentFile f) = some f :=
  rfl

lemma decodeRecentWorkspaceEntry_store (w : RecentWorkspaceEntry) :
    decodeRecentWorkspaceEntry (storeRecentWorkspaceEntry w) = some w := by
  cases w <;> rfl

lemma filterMap_decode_store_files (l : List RecentFile) :
    l.filterMap (decodeRecentFile ∘ storeRecentFile) = l := by
  induction l with
  | nil => rfl
  | cons a t ih => simp [List.filterMap_cons, Function.comp, decodeRecentFile_store, ih]

lemma filterMap_decode_store_workspaces (l : List RecentWorkspaceEntry) :
    l.filterMap (decodeRecentWorkspaceEntry ∘ storeRecentWorkspaceEntry) = l := by
  induction l with
  | nil => rfl
  | cons a t ih =>
      simp [List.filterMap_cons, Function.comp, decodeRecentWorkspaceEntry_store, ih]

/-- C8: the persistence codec round-trips — decoding the encoded form of
any history yields that history back (so in particular for every history
built via add/remove calls). -/
theorem restoreRecentlyOpened_toStoreData_roundtrip :
    ∀ h : RecentlyOpened, restoreRecentlyOpened (toStoreData h) = h := by
  intro h
  obtain ⟨ws, fs⟩ := h
  simp only [restoreRecentlyOpened, getField_toStoreData_files,
    getField_toStoreData_workspaces]
  rw [List.filterMap_map, List.filterMap_map]
  rw [filterMap_decode_store_files, filterMap_decode_store_workspaces]

/-- C5: `addRecentlyOpened` applies its entries in the caller-supplied
order; each entry is applied by removing its location and prepending the
entry to `files` (for a File) or `workspaces` (otherwise); adding two
distinct folders A then B yields front-to-back [B, A]; the spec's
re-adding scenario yields workspaces [a, b]; and the blob is written
exactly once, with the final history, after all entries are applied. -/
theorem addRecentlyOpened_order_and_persist :
    (∀ (h : RecentlyOpened) (r : Recent) (rs : List Recent),
      addRecentlyOpenedData h (r :: rs) = addRecentlyOpenedData (addRecentStep h r) rs) ∧
    (∀ (h : RecentlyOpened) (u : URI),
      (addRecentStep h (Recent.file u)).files =
          ⟨u⟩ :: (doRemoveFromRecentlyOpened h [u]).files ∧
        (addRecentStep h (Recent.file u)).workspaces =
          (doRemoveFromRecentlyOpened h [u]).workspaces) ∧
    (∀ (h : RecentlyOpened) (u : URI),
      (addRecentStep h (Recent.folder u)).workspaces =
          .folder u :: (doRemoveFromRecentlyOpened h [u]).workspaces ∧
        (addRecentStep h (Recent.folder u)).files =
          (doRemoveFromRecentlyOpened h [u]).files) ∧
    (∀ (h : RecentlyOpened) (id : String) (configPath : URI),
      (addRecentStep h (Recent.workspace id configPath)).workspaces =
          .workspace id configPath ::
            (doRemoveFromRecentlyOpened h [configPath]).workspaces ∧
        (addRecentStep h (Recent.workspace id configPath)).files =
          (doRemoveFromRecentlyOpened h [configPath]).files) ∧
    (∀ a b : URI, a ≠ b →
      (addRecentlyOpenedData emptyRecentlyOpened
          [Recent.folder a, Recent.folder b]).workspaces =
        [.folder b, .folder a]) ∧
    ((addRecentlyOpenedData
        (addRecentlyOpenedData emptyRecentlyOpened [Recent.folder "file:///a"])
        [Recent.folder "file:///b", Recent.folder "file:///a"]).workspaces =
      [.folder "file:///a", .folder "file:///b"]) ∧
    (∀ (h : RecentlyOpened) (recents : List Recent),
      (addRecentlyOpened h recents).writes =
        [(RECENTLY_OPENED_KEY, toStoreData (addRecentlyOpenedData h recents))]) := by
  refine ⟨fun h r rs => rfl, fun h u => ⟨rfl, rfl⟩, fun h u => ⟨rfl, rfl⟩,
    fun h id configPath => ⟨rfl, rfl⟩, ?_, rfl, fun h recents => rfl⟩
  intro a b hab
  have hba : (b == a) = false := beq_eq_false_iff_ne.mpr (Ne.symm hab)
  simp [addRecentlyOpenedData, addRecentStep, doRemoveFromRecentlyOpened,
    emptyRecentlyOpened, RecentWorkspaceEntry.location, hba]

/-- Witness for C5 at the two concrete distinct folder locations of the
spec's order example. -/
theorem addRecentlyOpened_order_and_persist_witness :
    (addRecentlyOpenedData emptyRecentlyOpened
        [Recent.folder "file:///a", Recent.folder "file:///b"]).workspaces =
      [.folder "file:///b", .folder "file:///a"] :=
  addRecentlyOpened_order_and_persist.2.2.2.2.1 "file:///a" "file:///b" (by decide)

/-- C9: removing locations not present leaves the history unchanged; an
entry survives `removeFromRecentlyOpened` exactly if it was there before
and none of the given paths equals its location (files matched by fileUri,
workspaces by folderUri or workspace configPath, by exact string
equality); and the result is persisted. -/
theorem removeFromRecentlyOpened_frame :
    (∀ (h : RecentlyOpened) (paths : List URI),
      (∀ p ∈ paths,
        (∀ f ∈ h.files, f.fileUri ≠ p) ∧ (∀ w ∈ h.workspaces, w.location ≠ p)) →
      (removeFromRecentlyOpened h paths).history = h) ∧
    (∀ (h : RecentlyOpened) (paths : List URI) (f : RecentFile),
      f ∈ (removeFromRecentlyOpened h paths).history.files ↔
        f ∈ h.files ∧ ∀ p ∈ paths, p ≠ f.fileUri) ∧
    (∀ (h : RecentlyOpened) (paths : List URI) (w : RecentWorkspaceEntry),
      w ∈ (removeFromRecentlyOpened h paths).history.workspaces ↔
        w ∈ h.workspaces ∧ ∀ p ∈ paths, p ≠ w.location) ∧
    (∀ (h : RecentlyOpened) (paths : List URI),
      (removeFromRecentlyOpened h paths).writes =
        [(RECENTLY_OPENED_KEY, toStoreData (removeFromRecentlyOpened h paths).history)]) := by
  refine ⟨?_, ?_, ?_, fun h paths => rfl⟩
  · intro h paths hno
    obtain ⟨ws, fs⟩ := h
    simp only [removeFromRecentlyOpened, doRemoveFromRecentlyOpened]
    congr 1
    · rw [List.filter_eq_self]
      intro w hw
      simp only [Bool.not_eq_true', List.any_eq_false]
      intro p hp
      simp only [beq_iff_eq]
      exact fun hpe => (hno p hp).2 w hw hpe.symm
    · rw [List.filter_eq_self]
      intro f hf
      simp only [Bool.not_eq_true', List.any_eq_false]
      intro p hp
      simp only [beq_iff_eq]
      exact fun hpe => (hno p hp).1 f hf hpe.symm
  · intro h paths f
    simp [removeFromRecentlyOpened, doRemoveFromRecentlyOpened, List.mem_filter,
      List.any_eq_false, and_comm]
  · intro h paths w
    simp [removeFromRecentlyOpened, doRemoveFromRecentlyOpened, List.mem_filter,
      List.any_eq_false, and_comm]

/-- Witness for C9 at a concrete history and an absent location: the
removal is a no-op on the data. -/
theorem removeFromRecentlyOpened_frame_witness :
    (removeFromRecentlyOpened
        ⟨[.folder "file:///w"], [⟨"file:///f"⟩]⟩ ["file:///gone"]).history =
      ⟨[.folder "file:///w"], [⟨"file:///f"⟩]⟩ :=
  removeFromRecentlyOpened_frame.1
    ⟨[.folder "file:///w"], [⟨"file:///f"⟩]⟩ ["file:///gone"] (by decide)

lemma map_filter_comp {α β : Type} (f : α → β) (p : β → Bool) (l : List α) :
    (l.filter fun a => p (f a)).map f = (l.map f).filter p := by
  induction l with
  | nil => rfl
  | cons a t ih => by_cases hpa : p (f a) <;> simp [List.filter_cons, hpa, ih]

lemma allLocations_doRemove (h : RecentlyOpened) (paths : List URI) :
    (doRemoveFromRecentlyOpened h paths).allLocations =
      h.allLocations.filter fun l => !(paths.any fun p => p == l) := by
  obtain ⟨ws, fs⟩ := h
  simp only [doRemoveFromRecentlyOpened, RecentlyOpened.allLocations, List.filter_append]
  rw [← map_filter_comp RecentFile.fileUri (fun l => !(paths.any fun p => p == l)) fs,
    ← map_filter_comp RecentWorkspaceEntry.location
      (fun l => !(paths.any fun p => p == l)) ws]

lemma count_filter_true (q : URI → Bool) (x : URI) (hqx : q x = true) (l : List URI) :
    (l.filter q).count x = l.count x := by
  induction l with
  | nil => rfl
  | cons a t ih =>
      by_cases hqa : q a
      · rw [List.filter_cons_of_pos hqa, List.count_cons, List.count_cons, ih]
      · rw [List.filter_cons_of_neg hqa, ih, List.count_cons]
        have hax : (a == x) = false := by
          cases hab : a == x
          · rfl
          · exact absurd hqx (by rw [← eq_of_beq hab]; simpa using hqa)
        simp [hax]

lemma allLocations_addRecentStep_perm (h : RecentlyOpened) (r : Recent) :
    (addRecentStep h r).allLocations.Perm
      (r.location :: h.allLocations.filter fun l => !(r.location == l)) := by
  cases r with
  | file u =>
      have hd := allLocations_doRemove h [u]
      simp only [RecentlyOpened.allLocations, List.any_cons, List.any_nil,
        Bool.or_false] at hd
      simp only [addRecentStep, RecentlyOpened.allLocations, List.map_cons,
        List.cons_append, Recent.location, hd]
      exact List.Perm.refl _
  | folder u =>
      have hd := allLocations_doRemove h [u]
      simp only [RecentlyOpened.allLocations, List.any_cons, List.any_nil,
        Bool.or_false] at hd
      simp only [addRecentStep, RecentlyOpened.allLocations, List.map_cons,
        Recent.location, RecentWorkspaceEntry.location]
      rw [List.filter_append] at hd
      rw [List.filter_append]
      refine List.Perm.trans List.perm_middle ?_
      rw [hd]
  | workspace id configPath =>
      have hd := allLocations_doRemove h [configPath]
      simp only [RecentlyOpened.allLocations, List.any_cons, List.any_nil,
        Bool.or_false] at hd
      simp only [addRecentStep, RecentlyOpened.allLocations, List.map_cons,
        Recent.location, RecentWorkspaceEntry.location]
      rw [List.filter_append] at hd
      rw [List.filter_append]
      refine List.Perm.trans List.perm_middle ?_
      rw [hd]

lemma nodup_allLocations_addRecentStep {h : RecentlyOpened} (r : Recent)
    (hn : h.allLocations.Nodup) : (addRecentStep h r).allLocations.Nodup := by
  rw [(allLocations_addRecentStep_perm h r).nodup_iff, List.nodup_cons]
  refine ⟨?_, hn.filter _⟩
  intro hmem
  have hpred := (List.mem_filter.mp hmem).2
  simp at hpred

lemma nodup_allLocations_addData (recents : List Recent) :
    ∀ h : RecentlyOpened, h.allLocations.Nodup →
      (addRecentlyOpenedData h recents).allLocations.Nodup := by
  induction recents with
  | nil => exact fun h hn => hn
  | cons r rs ih => exact fun h hn => ih _ (nodup_allLocations_addRecentStep r hn)

lemma reachable_nodup_allLocations :
    ∀ h : RecentlyOpened, ReachableHistory h → h.allLocations.Nodup := by
  intro h hr
  induction hr with
  | empty => simp [emptyRecentlyOpened, RecentlyOpened.allLocations]
  | add h recents _ ih => exact nodup_allLocations_addData recents h ih
  | remove h paths _ ih =>
      show (doRemoveFromRecentlyOpened h paths).allLocations.Nodup
      rw [allLocations_doRemove]
      exact ih.filter _

lemma filterMap_folderUriOf_sublist (ws : List RecentWorkspaceEntry) :
    (ws.filterMap folderUriOf).Sublist (ws.map RecentWorkspaceEntry.location) := by
  induction ws with
  | nil => simp
  | cons w t ih =>
      cases w with
      | folder u =>
          simpa [List.filterMap_cons, folderUriOf, RecentWorkspaceEntry.location] using
            ih.cons₂ u
      | workspace id configPath =>
          simpa [List.filterMap_cons, folderUriOf, RecentWorkspaceEntry.location] using
            ih.cons configPath

lemma filterMap_configPathOf_sublist (ws : List RecentWorkspaceEntry) :
    (ws.filterMap workspaceConfigPathOf).Sublist (ws.map RecentWorkspaceEntry.location) := by
  induction ws with
  | nil => simp
  | cons w t ih =>
      cases w with
      | folder u =>
          simpa [List.filterMap_cons, workspaceConfigPathOf,
            RecentWorkspaceEntry.location] using ih.cons u
      | workspace id configPath =>
          simpa [List.filterMap_cons, workspaceConfigPathOf,
            RecentWorkspaceEntry.location] using ih.cons₂ configPath

lemma addRecentStep_folder_front (h : RecentlyOpened) (x : URI) :
    ((addRecentStep h (Recent.folder x)).workspaces.countP fun w => w.location == x) = 1 ∧
      (addRecentStep h (Recent.folder x)).workspaces.head? =
        some (RecentWorkspaceEntry.folder x) := by
  refine ⟨?_, rfl⟩
  simp only [addRecentStep, doRemoveFromRecentlyOpened, List.any_cons, List.any_nil,
    Bool.or_false]
  rw [List.countP_cons]
  have h0 : ((h.workspaces.filter fun w => !(x == w.location)).countP
      fun w => w.location == x) = 0 := by
    rw [List.countP_eq_zero]
    intro w hw
    have hpred := (List.mem_filter.mp hw).2
    simp only [Bool.not_eq_true', beq_eq_false_iff_ne] at hpred
    simp only [beq_iff_eq]
    exact fun he => hpred he.symm
  rw [h0]
  simp [RecentWorkspaceEntry.location]

lemma count_allLocations_addRecentStep (h : RecentlyOpened) (r : Recent) (x : URI) :
    (addRecentStep h r).allLocations.count x =
      if x = r.location then 1 else h.allLocations.count x := by
  rw [(allLocations_addRecentStep_perm h r).count_eq x, List.count_cons]
  by_cases hx : x = r.location
  · subst hx
    have h0 : ((h.allLocations.filter fun l => !(r.location == l)).count r.location) = 0 := by
      rw [List.count_eq_zero]
      intro hmem
      have hpred := (List.mem_filter.mp hmem).2
      simp at hpred
    rw [h0]
    simp
  · have hne : (r.location == x) = false := beq_eq_false_iff_ne.mpr fun he => hx he.symm
    rw [count_filter_true (fun l => !(r.location == l)) x (by simp [hne])]
    simp [hx, hne]

/-- C6: every history reachable from the empty one by add/remove calls has
pairwise-distinct locations within each kind (files by fileUri, folders by
folderUri, workspaces by configPath); and after adding RecentFolder(X)
twice the workspaces list holds exactly one entry whose location is X,
sitting at the front. -/
theorem recentHistory_unique_locations :
    (∀ h : RecentlyOpened, ReachableHistory h →
      (h.files.map RecentFile.fileUri).Nodup ∧
        (h.workspaces.filterMap folderUriOf).Nodup ∧
        (h.workspaces.filterMap workspaceConfigPathOf).Nodup) ∧
    (∀ (h : RecentlyOpened) (x : URI),
      ((addRecentlyOpenedData (addRecentlyOpenedData h [Recent.folder x])
          [Recent.folder x]).workspaces.countP fun w => w.location == x) = 1 ∧
        (addRecentlyOpenedData (addRecentlyOpenedData h [Recent.folder x])
            [Recent.folder x]).workspaces.head? =
          some (RecentWorkspaceEntry.folder x)) := by
  constructor
  · intro h hr
    have hn := reachable_nodup_allLocations h hr
    simp only [RecentlyOpened.allLocations] at hn
    exact ⟨hn.of_append_left,
      hn.of_append_right.sublist (filterMap_folderUriOf_sublist h.workspaces),
      hn.of_append_right.sublist (filterMap_configPathOf_sublist h.workspaces)⟩
  · intro h x
    exact addRecentStep_folder_front (addRecentlyOpenedData h [Recent.folder x]) x

/-- Witness for C6: the per-kind uniqueness at the empty (trivially
reachable) history, and the double-add dedup at concrete inputs. -/
theorem recentHistory_unique_locations_witness :
    ((emptyRecentlyOpened.files.map RecentFile.fileUri).Nodup ∧
      (emptyRecentlyOpened.workspaces.filterMap folderUriOf).Nodup ∧
      (emptyRecentlyOpened.workspaces.filterMap workspaceConfigPathOf).Nodup) ∧
    (((addRecentlyOpenedData (addRecentlyOpenedData emptyRecentlyOpened
          [Recent.folder "file:///x"]) [Recent.folder "file:///x"]).workspaces.countP
        fun w => w.location == "file:///x") = 1 ∧
      (addRecentlyOpenedData (addRecentlyOpenedData emptyRecentlyOpened
          [Recent.folder "file:///x"]) [Recent.folder "file:///x"]).workspaces.head? =
        some (RecentWorkspaceEntry.folder "file:///x")) :=
  ⟨recentHistory_unique_locations.1 emptyRecentlyOpened ReachableHistory.empty,
    recentHistory_unique_locations.2 emptyRecentlyOpened "file:///x"⟩

/-- C10: adding an entry first removes its location from BOTH lists, so
over the combined locations of the whole history (files and workspaces
together) the added location occurs exactly once afterwards and every
other location keeps its multiplicity; consequently every reachable
history has globally distinct locations, even across kinds. -/
theorem addRecent_dedup_across_kinds :
    (∀ (h : RecentlyOpened) (r : Recent) (x : URI),
      (addRecentStep h r).allLocations.count x =
        if x = r.location then 1 else h.allLocations.count x) ∧
    (∀ h : RecentlyOpened, ReachableHistory h → h.allLocations.Nodup) :=
  ⟨count_allLocations_addRecentStep, reachable_nodup_allLocations⟩

/-- Witness for C10: the count law at a concrete file entry added over a
history holding a folder with the same location, and global uniqueness at
the empty (trivially reachable) history. -/
theorem addRecent_dedup_across_kinds_witness :
    ((addRecentStep ⟨[RecentWorkspaceEntry.folder "file:///x"], []⟩
        (Recent.file "file:///x")).allLocations.count "file:///x" =
      if ("file:///x" : URI) = (Recent.file "file:///x").location then 1
      else (⟨[RecentWorkspaceEntry.folder "file:///x"], []⟩ :
          RecentlyOpened).allLocations.count "file:///x") ∧
    emptyRecentlyOpened.allLocations.Nodup :=
  ⟨addRecent_dedup_across_kinds.1 ⟨[RecentWorkspaceEntry.folder "file:///x"], []⟩
      (Recent.file "file:///x") "file:///x",
    addRecent_dedup_across_kinds.2 emptyRecentlyOpened ReachableHistory.empty⟩

end SimpleWindowService
